import Mathlib

/-!
Shallow embedding of the record-store logic of the PersoProj repository
(src/app.py, with src/pm2gemini.py an earlier near-identical variant).

The store state lives in Streamlit session state: `projects` is a Python
dict from project id to a project record, `next_project_id_num` is the id
counter, `tasks_expanded` is the per-task UI expansion dict, and
`data_changed` is the dirty flag.  Python dicts are modelled as ordered
association lists (insertion order preserved, assignment to an existing
key updates in place, `del` removes the key).  A field that may be absent
from a record (`notes`, which older schema versions lacked) is an
`Option`; fields the code always writes and reads unconditionally
(`name`, `description`, `created_date`, `tasks`, `status`, `due_date`)
are plain fields, with `due_date` an `Option String` because the code
stores `None` when no date is given.
-/

namespace PersoProj

structure Task where
  name : String
  due_date : Option String
  status : String
  notes : Option String
deriving DecidableEq

structure Project where
  name : String
  description : String
  created_date : String
  tasks : List Task
  notes : Option String
deriving DecidableEq

/-- A Python dict with string keys, as an ordered association list. -/
abbrev Dict (α : Type) := List (String × α)

/-- Dict lookup: `d[k]` / `k in d`, first matching key. -/
def dictGet {α : Type} (ps : Dict α) (k : String) : Option α :=
  match ps with
  | [] => none
  | (k2, v) :: rest => if k2 = k then some v else dictGet rest k

/-- Dict assignment `d[k] = v`: updates the key in place if present,
otherwise appends it (Python dict insertion-order semantics). -/
def dictSet {α : Type} (ps : Dict α) (k : String) (v : α) : Dict α :=
  match ps with
  | [] => [(k, v)]
  | (k2, w) :: rest => if k2 = k then (k, v) :: rest else (k2, w) :: dictSet rest k v

/-- Dict deletion `del d[k]`. -/
def dictErase {α : Type} (ps : Dict α) (k : String) : Dict α :=
  ps.filter (fun kv => kv.1 != k)

/-- Python `str.strip()` with no argument: remove leading and trailing
whitespace (modelled over the string's character list so that concrete
instances evaluate in the kernel). -/
def pyStrip (s : String) : String :=
  String.mk (((s.data.dropWhile Char.isWhitespace).reverse.dropWhile
    Char.isWhitespace).reverse)

/-- Helper for `pyStartsWith`: does the first list start with the
second? -/
def charsStart : List Char → List Char → Bool
  | _, [] => true
  | [], _ :: _ => false
  | c :: cs, d :: ds => c == d && charsStart cs ds

/-- Python `s.startswith(pat)`, over character lists. -/
def pyStartsWith (s pat : String) : Bool :=
  charsStart s.data pat.data

/-- The in-memory store: `st.session_state.projects` plus
`st.session_state.next_project_id_num`. -/
structure Store where
  projects : Dict Project
  next_project_id_num : Nat
deriving DecidableEq

/-- Error kinds reported to the user (the spec's `ValidationError` /
`NotFoundError`; the source shows them with `st.error`). -/
inductive PMError where
  | validation
  | notFound
deriving DecidableEq

/-- Replace the element at index `i` by `f` of it, leaving the list
unchanged when `i` is out of range (`l[i] = ...` in Python on a valid
index; indices used by the code are always in range). -/
def modifyAt {α : Type} (f : α → α) : Nat → List α → List α
  | _, [] => []
  | 0, t :: ts => f t :: ts
  | n + 1, t :: ts => t :: modifyAt f n ts

/-- Apply `f` to the project stored under `pid`, leaving other entries
unchanged (in-place mutation of `st.session_state.projects[pid]`). -/
def mapProject (ps : Dict Project) (pid : String) (f : Project → Project) :
    Dict Project :=
  ps.map (fun kv => if kv.1 = pid then (kv.1, f kv.2) else kv)

/-- The "Create Project" form handler, src/app.py lines 268-279:
`if not project_name:` report the error and change nothing, else mint
`f"P{next_project_id_num}"`, increment the counter and insert the new
record (empty task list, `created_date` = today's date, passed here as
the `today` argument).  `not s` on a Python string is true exactly for
the empty string, so no trimming happens.  src/pm2gemini.py lines
182-189 is the same handler without the notes field. -/
def create_project (s : Store) (name description notes today : String) :
    Option PMError × Store :=
  if name = "" then
    (some PMError.validation, s)
  else
    let pid := "P" ++ toString s.next_project_id_num
    (none,
      { projects := dictSet s.projects pid
          { name := name, description := description, created_date := today,
            tasks := [], notes := some notes },
        next_project_id_num := s.next_project_id_num + 1 })

/-- The store part of the "Delete Project" handler, src/app.py line 330
(`del st.session_state.projects[project_to_delete_id]`); the UI only
offers ids that are present. -/
def delete_project (s : Store) (pid : String) : Store :=
  { s with projects := dictErase s.projects pid }

/-- The expansion-state part of the "Delete Project" handler, src/app.py
lines 331-332: every key `k` of `tasks_expanded` with `k.startswith(pid)`
is deleted.  Keys have the shape `f"{project_id}_{index}"`. -/
def delete_expansion (exp : Dict Bool) (pid : String) : Dict Bool :=
  exp.filter (fun kv => !(pyStartsWith kv.1 pid))

/-- The full "Delete Project" handler, src/app.py lines 329-338
(src/pm2gemini.py lines 227-233 is identical): removes the project
record (and with it all its tasks) and the matching expansion keys. -/
def delete_project_ui (s : Store) (exp : Dict Bool) (pid : String) :
    Store × Dict Bool :=
  (delete_project s pid, delete_expansion exp pid)

/-- The save-click rerun of the inline task editor, src/app.py lines
390-402 together with lines 417-423.  On the rerun in which the save
button fires: if `new_name.strip()` is empty the handler reports the
error and leaves name/due/status alone, but the script then falls
through to lines 417-423, which unconditionally assign the notes text
area's current content to `tasks[i]['notes']`; if the name is non-empty
the handler overwrites name, due date and status and `st.rerun()` at
line 402 aborts the script before line 422 runs, so the notes field is
left as it is in that rerun. -/
def update_task (s : Store) (pid : String) (i : Nat) (nm : String)
    (due : Option String) (status : String) (notes_widget : String) :
    Option PMError × Store :=
  let setNotes : Task → Task := fun t => { t with notes := some notes_widget }
  let setFields : Task → Task := fun t =>
    { t with name := nm, due_date := due, status := status }
  if pyStrip nm = "" then
    (some PMError.validation,
      { s with projects := mapProject s.projects pid (fun p => { p with tasks := modifyAt setNotes i p.tasks }) })
  else
    (none,
      { s with projects := mapProject s.projects pid (fun p => { p with tasks := modifyAt setFields i p.tasks }) })

/-- Number of tasks with status "Completed" (src/app.py line 201). -/
def completedCount (ts : List Task) : Nat :=
  (ts.filter (fun t => t.status = "Completed")).length

/-- Python's built-in `round` on an exact value: round half to even. -/
def pythonRound (q : ℚ) : ℤ :=
  let n : ℤ := ⌊q⌋
  if q - (n : ℚ) < 1 / 2 then n
  else if (1 : ℚ) / 2 < q - (n : ℚ) then n + 1
  else if n % 2 = 0 then n else n + 1

/-- The dashboard's progress computation, src/app.py lines 200-202
(src/pm2gemini.py lines 137-139 identical):
`0 if total_tasks == 0 else round((completed_tasks / total_tasks) * 100)`,
with the float arithmetic modelled exactly over the rationals. -/
def progress (p : Project) : ℤ :=
  if p.tasks.length = 0 then 0
  else pythonRound (((completedCount p.tasks : ℚ) / (p.tasks.length : ℚ)) * 100)

/-- The top-level structure of the backing pickle file / JSON backup: a
dict that may or may not carry each of the two expected keys (`.get`
with a default is used on load, and import validates their presence). -/
structure FilePayload where
  projects : Option (Dict Project)
  next_project_id_num : Option Nat
deriving DecidableEq

/-- `save_data`, src/app.py lines 43-66: pickles the dict
`{'projects': ..., 'next_project_id_num': ...}`; pickling round-trips
the data exactly, so the file content is modelled as the payload
itself. -/
def save_data (s : Store) : FilePayload :=
  { projects := some s.projects, next_project_id_num := some s.next_project_id_num }

/-- Load-time notes normalization for one task (src/app.py lines 85-87):
`if 'notes' not in task: task['notes'] = ""`. -/
def normalizeTask (t : Task) : Task :=
  { t with notes := some (t.notes.getD "") }

/-- Load-time notes normalization for one project and its tasks
(src/app.py lines 82-87). -/
def normalizeProject (p : Project) : Project :=
  { p with notes := some (p.notes.getD ""), tasks := p.tasks.map normalizeTask }

/-- The whole normalization loop of `load_data`, src/app.py lines 81-87. -/
def normalizeStore (s : Store) : Store :=
  { s with projects := s.projects.map (fun kv => (kv.1, normalizeProject kv.2)) }

/-- `load_data` on a file that exists and unpickles successfully,
src/app.py lines 74-87: `loaded_data.get('projects', {})` and
`loaded_data.get('next_project_id_num', 1)` substitute defaults for
missing top-level keys, then the notes normalization loop runs
(src/pm2gemini.py lines 57-59 has the same `.get` defaults but no
normalization loop). -/
def load_data (p : FilePayload) : Store :=
  normalizeStore
    { projects := p.projects.getD [],
      next_project_id_num := p.next_project_id_num.getD 1 }

/-- The "Confirm Import" handler of the JSON backup page (the spec's
`import_json`), src/app.py lines 612-624: if `'projects' not in
import_data or 'next_project_id_num' not in import_data` report the
error and leave everything alone, else replace both session-state keys
with the imported content — no notes normalization — and mark the dirty
flag via `mark_data_changed()`.  The immediate `save_data()` call on
line 624 is the separate eager-save policy layered on every mutation
(spec section 4.1), not part of the store operation. -/
def importJson (s : Store) (dirty : Bool) (p : FilePayload) :
    Option PMError × Store × Bool :=
  match p.projects, p.next_project_id_num with
  | some pr, some n => (none, { projects := pr, next_project_id_num := n }, true)
  | none, _ => (some PMError.validation, s, dirty)
  | _, none => (some PMError.validation, s, dirty)

/-- One user-level store operation for reasoning about operation
sequences: a create-form submission or a delete-confirmation click. -/
inductive Op where
  | create (name description notes today : String)
  | delete (pid : String)

/-- Run one operation. -/
def applyOp (s : Store) (op : Op) : Store :=
  match op with
  | Op.create nm d n today => (create_project s nm d n today).2
  | Op.delete pid => delete_project s pid

/-- Run a sequence of operations. -/
def runStore (s : Store) : List Op → Store
  | [] => s
  | op :: ops => runStore (applyOp s op) ops

/-- The numeric suffixes of the ids minted by the successful creates of
a run, in order: a successful create mints `"P" ++ toString` of the
counter's current value. -/
def runMints (s : Store) : List Op → List Nat
  | [] => []
  | Op.create nm d n today :: ops =>
      if nm = "" then runMints s ops
      else s.next_project_id_num :: runMints (applyOp s (Op.create nm d n today)) ops
  | Op.delete pid :: ops => runMints (applyOp s (Op.delete pid)) ops

/-! Concrete fixtures used by witnesses and counterexamples. -/

/-- The empty store a fresh session starts from. -/
def emptyStore : Store := { projects := [], next_project_id_num := 1 }

/-- A task with every field present. -/
def sampleTask (nm status : String) : Task :=
  { name := nm, due_date := none, status := status, notes := some "" }

/-- A project record as `create_project` builds it, plus the given tasks. -/
def sampleProject (nm : String) (ts : List Task) : Project :=
  { name := nm, description := "", created_date := "2024-01-01", tasks := ts,
    notes := some "" }

/-- A store holding one legacy-style project whose `notes` key is absent. -/
def storeNoNotes : Store :=
  { projects := [("P1",
      { name := "a", description := "", created_date := "2024-01-01",
        tasks := [], notes := none })],
    next_project_id_num := 2 }

/-- A fully normalized one-project store. -/
def storeNormal : Store :=
  { projects := [("P1", sampleProject "a" [sampleTask "t" "Not Started"])],
    next_project_id_num := 2 }

/-- A store whose single task carries the notes value "old". -/
def storeTaskOld : Store :=
  { projects := [("P1", sampleProject "a"
      [{ name := "t", due_date := none, status := "Not Started",
         notes := some "old" }])],
    next_project_id_num := 2 }

/-- A store holding projects "P1" and "P12": the id of the second has the
id of the first as a string prefix. -/
def storePrefixIds : Store :=
  { projects := [("P1", sampleProject "one" []), ("P12", sampleProject "twelve" [])],
    next_project_id_num := 13 }

/-- Expansion state with one entry, keyed by project "P12"'s id. -/
def expP12 : Dict Bool := [("P12_0", true)]

/-- A project with one of three tasks completed. -/
def projOneOfThree : Project :=
  sampleProject "W"
    [sampleTask "a" "Completed", sampleTask "b" "Not Started",
     sampleTask "c" "Blocked"]

/-- A project with two of three tasks completed. -/
def projTwoOfThree : Project :=
  sampleProject "V"
    [sampleTask "a" "Completed", sampleTask "b" "Completed",
     sampleTask "c" "Blocked"]

/-- A store holding the two progress-example projects. -/
def storeProgress : Store :=
  { projects := [("P1", projOneOfThree), ("P2", projTwoOfThree)],
    next_project_id_num := 3 }

/-- A payload carrying both top-level keys. -/
def payloadBoth : FilePayload :=
  { projects := some [("P7", sampleProject "seven" [])], next_project_id_num := some 8 }

/-- A payload missing the counter key. -/
def payloadNoCounter : FilePayload :=
  { projects := some [], next_project_id_num := none }

/-- A payload missing both top-level keys. -/
def payloadEmpty : FilePayload :=
  { projects := none, next_project_id_num := none }

/-- A legacy project record: neither it nor its task has a notes key. -/
def legacyProject : Project :=
  { name := "a", description := "", created_date := "2024-01-01",
    tasks := [{ name := "t", due_date := none, status := "Not Started",
                notes := none }],
    notes := none }

/-- A payload as written by a pre-notes schema version. -/
def payloadLegacy : FilePayload :=
  { projects := some [("P1", legacyProject)], next_project_id_num := some 2 }

/-- A short operation run: create a project, delete it, create another. -/
def opsCreateDelete : List Op := [Op.create "a" "" "" "2024-01-01", Op.delete "P1"]

/-- The tail of the sample run. -/
def opsCreateMore : List Op := [Op.create "b" "" "" "2024-01-02"]

/-! Helper lemmas about the dict model. -/

theorem dictGet_nil {α : Type} (k : String) : dictGet ([] : Dict α) k = none := rfl

theorem dictGet_cons {α : Type} (k2 : String) (v : α) (rest : Dict α) (k : String) :
    dictGet ((k2, v) :: rest) k = if k2 = k then some v else dictGet rest k := rfl

theorem dictSet_cons {α : Type} (k2 : String) (v2 : α) (rest : Dict α)
    (k : String) (v : α) :
    dictSet ((k2, v2) :: rest) k v =
      if k2 = k then (k, v) :: rest else (k2, v2) :: dictSet rest k v := rfl

theorem dictErase_cons {α : Type} (k2 : String) (v : α) (rest : Dict α) (k : String) :
    dictErase ((k2, v) :: rest) k =
      if k2 = k then dictErase rest k else (k2, v) :: dictErase rest k := by
  simp only [dictErase, List.filter_cons]
  by_cases h : k2 = k <;> simp [h]

theorem dictGet_dictSet_self {α : Type} (ps : Dict α) (k : String) (v : α) :
    dictGet (dictSet ps k v) k = some v := by
  induction ps with
  | nil => simp [dictSet, dictGet]
  | cons kv rest ih =>
    obtain ⟨k2, w⟩ := kv
    by_cases h : k2 = k
    · simp [dictSet_cons, dictGet_cons, h]
    · simp [dictSet_cons, dictGet_cons, h, ih]

theorem dictGet_dictSet_ne {α : Type} (ps : Dict α) (k k2 : String) (v : α)
    (h : k2 ≠ k) : dictGet (dictSet ps k v) k2 = dictGet ps k2 := by
  have h2 : k ≠ k2 := fun h3 => h h3.symm
  induction ps with
  | nil => simp [dictSet, dictGet, h2]
  | cons kv rest ih =>
    obtain ⟨k3, w⟩ := kv
    by_cases h3 : k3 = k
    · subst h3
      simp [dictSet_cons, dictGet_cons, h2]
    · rw [dictSet_cons, if_neg h3, dictGet_cons, dictGet_cons, ih]

theorem dictGet_dictErase {α : Type} (ps : Dict α) (k k2 : String) :
    dictGet (dictErase ps k) k2 = if k2 = k then none else dictGet ps k2 := by
  induction ps with
  | nil => simp [dictErase, dictGet]
  | cons kv rest ih =>
    obtain ⟨k3, w⟩ := kv
    rw [dictErase_cons]
    by_cases h3 : k3 = k
    · subst h3
      rw [if_pos rfl, ih, dictGet_cons]
      by_cases h4 : k2 = k3
      · simp [h4]
      · simp [h4, Ne.symm h4]
    · rw [if_neg h3, dictGet_cons, dictGet_cons, ih]
      by_cases h4 : k3 = k2
      · subst h4
        simp [h3]
      · simp [h4]

theorem dictGet_mapProject (ps : Dict Project) (pid k : String)
    (f : Project → Project) :
    dictGet (mapProject ps pid f) k =
      if k = pid then (dictGet ps pid).map f else dictGet ps k := by
  induction ps with
  | nil => simp [mapProject, dictGet]
  | cons kv rest ih =>
    obtain ⟨k2, w⟩ := kv
    have hcons : mapProject ((k2, w) :: rest) pid f =
        (if k2 = pid then (k2, f w) else (k2, w)) :: mapProject rest pid f := by
      simp only [mapProject, List.map_cons]
    rw [hcons]
    by_cases h2 : k2 = pid
    · subst h2
      rw [if_pos rfl, dictGet_cons, dictGet_cons]
      by_cases h3 : k2 = k
      · subst h3
        simp
      · simp [dictGet_cons, h3, ih, Ne.symm h3]
    · rw [if_neg h2, dictGet_cons, dictGet_cons, ih]
      by_cases h3 : k2 = k
      · subst h3
        simp [dictGet_cons, h2, Ne.symm h2]
      · simp [dictGet_cons, h2, h3]

theorem dictGet_mapValues {α β : Type} (ps : Dict α) (f : α → β) (k : String) :
    dictGet (ps.map (fun kv => (kv.1, f kv.2))) k = (dictGet ps k).map f := by
  induction ps with
  | nil => simp [dictGet]
  | cons kv rest ih =>
    obtain ⟨k2, w⟩ := kv
    by_cases h : k2 = k <;> simp [dictGet_cons, h, ih]

theorem delete_expansion_cons (k2 : String) (b : Bool) (rest : Dict Bool)
    (pid : String) :
    delete_expansion ((k2, b) :: rest) pid =
      if pyStartsWith k2 pid then delete_expansion rest pid
      else (k2, b) :: delete_expansion rest pid := by
  simp only [delete_expansion, List.filter_cons]
  by_cases h : pyStartsWith k2 pid <;> simp [h]

theorem dictGet_delete_expansion (exp : Dict Bool) (pid k : String) :
    dictGet (delete_expansion exp pid) k =
      if pyStartsWith k pid then none else dictGet exp k := by
  induction exp with
  | nil => simp [delete_expansion, dictGet]
  | cons kv rest ih =>
    obtain ⟨k2, b⟩ := kv
    rw [delete_expansion_cons]
    by_cases h2 : pyStartsWith k2 pid
    · rw [if_pos h2, ih, dictGet_cons]
      by_cases h3 : k2 = k
      · subst h3
        simp [h2]
      · simp [h3]
    · rw [if_neg h2, dictGet_cons, dictGet_cons, ih]
      by_cases h3 : k2 = k
      · subst h3
        simp [h2]
      · simp [h3]

/-! Helper lemmas about in-place list update. -/

theorem modifyAt_length {α : Type} (f : α → α) (i : Nat) (l : List α) :
    (modifyAt f i l).length = l.length := by
  induction l generalizing i with
  | nil => simp [modifyAt]
  | cons t ts ih =>
    cases i with
    | zero => simp [modifyAt]
    | succ n => simp [modifyAt, ih]

theorem modifyAt_getElem? {α : Type} (f : α → α) (i j : Nat) (l : List α) :
    (modifyAt f i l)[j]? = if i = j then (l[j]?).map f else l[j]? := by
  induction l generalizing i j with
  | nil => simp [modifyAt]
  | cons t ts ih =>
    cases i with
    | zero =>
      cases j with
      | zero => simp [modifyAt]
      | succ m => simp [modifyAt]
    | succ n =>
      cases j with
      | zero => simp [modifyAt]
      | succ m => simpa [modifyAt] using ih n m

/-! Helper lemmas about normalization. -/

theorem normalizeTask_idem (t : Task) :
    normalizeTask (normalizeTask t) = normalizeTask t := by
  simp [normalizeTask]

theorem normalizeProject_idem (p : Project) :
    normalizeProject (normalizeProject p) = normalizeProject p := by
  simp [normalizeProject, Function.comp_def, normalizeTask]

theorem normalizeStore_idem (s : Store) :
    normalizeStore (normalizeStore s) = normalizeStore s := by
  simp [normalizeStore, Function.comp_def, normalizeProject_idem]

/-! Helper lemmas about operation runs. -/

theorem applyOp_next (s : Store) (op : Op) :
    s.next_project_id_num ≤ (applyOp s op).next_project_id_num := by
  cases op with
  | create nm d n today =>
    by_cases h : nm = "" <;> simp [applyOp, create_project, h]
  | delete pid => simp [applyOp, delete_project]

theorem runStore_next (s : Store) (ops : List Op) :
    s.next_project_id_num ≤ (runStore s ops).next_project_id_num := by
  induction ops generalizing s with
  | nil => simp [runStore]
  | cons op ops ih =>
    exact le_trans (applyOp_next s op) (ih (applyOp s op))

theorem runMints_lower (s : Store) (ops : List Op) :
    ∀ n ∈ runMints s ops, s.next_project_id_num ≤ n := by
  induction ops generalizing s with
  | nil => simp [runMints]
  | cons op ops ih =>
    cases op with
    | create nm d nn today =>
      by_cases h : nm = ""
      · simpa [runMints, h] using ih s
      · intro n hn
        simp [runMints, h] at hn
        rcases hn with hn | hn
        · omega
        · have h2 := ih (applyOp s (Op.create nm d nn today)) n hn
          have h3 := applyOp_next s (Op.create nm d nn today)
          omega
    | delete pid =>
      intro n hn
      simp only [runMints] at hn
      have h2 := ih (applyOp s (Op.delete pid)) n hn
      have h3 := applyOp_next s (Op.delete pid)
      omega

theorem runMints_pairwise (s : Store) (ops : List Op) :
    (runMints s ops).Pairwise (· < ·) := by
  induction ops generalizing s with
  | nil => simp [runMints]
  | cons op ops ih =>
    cases op with
    | create nm d nn today =>
      by_cases h : nm = ""
      · simpa [runMints, h] using ih s
      · simp only [runMints, h, if_neg]
        refine List.Pairwise.cons ?_ (ih _)
        intro n hn
        have h2 := runMints_lower (applyOp s (Op.create nm d nn today)) ops n hn
        have h3 : (applyOp s (Op.create nm d nn today)).next_project_id_num
            = s.next_project_id_num + 1 := by
          simp [applyOp, create_project, h]
        omega
    | delete pid => simpa [runMints] using ih (applyOp s (Op.delete pid))

/-! Helper lemmas for evaluating `pythonRound`. -/

theorem pythonRound_low (q : ℚ) (n : ℤ) (h1 : (n : ℚ) ≤ q)
    (h2 : q < (n : ℚ) + 1 / 2) : pythonRound q = n := by
  have hf : ⌊q⌋ = n := by
    rw [Int.floor_eq_iff]
    refine ⟨h1, ?_⟩
    linarith
  have hc : q - ((n : ℤ) : ℚ) < 1 / 2 := by linarith
  simp only [pythonRound, hf, if_pos hc]

theorem pythonRound_up (q : ℚ) (n : ℤ) (h1 : (n : ℚ) + 1 / 2 < q)
    (h2 : q < (n : ℚ) + 1) : pythonRound q = n + 1 := by
  have hf : ⌊q⌋ = n := by
    rw [Int.floor_eq_iff]
    constructor
    · linarith
    · linarith
  have hc1 : ¬(q - ((n : ℤ) : ℚ) < 1 / 2) := by
    linarith
  have hc2 : (1 : ℚ) / 2 < q - ((n : ℤ) : ℚ) := by
    linarith
  simp only [pythonRound, hf, if_neg hc1, if_pos hc2]

/-! The claims. -/

/-- C1: Over every sequence of create/delete operations from any
starting store, the id counter never decreases, the numeric suffixes of
the ids minted by `create_project` (`"P"` followed by the counter value)
strictly increase and never repeat, and every id minted after any point
of the run has a suffix at least the counter at that point — so the id
of a project created and later deleted during the run, whose suffix
stays strictly below the counter from its mint on, is never minted
again. -/
theorem c1_minted_ids_strictly_increase (s : Store) (ops1 ops2 : List Op) :
    s.next_project_id_num ≤ (runStore s (ops1 ++ ops2)).next_project_id_num ∧
    (runMints s (ops1 ++ ops2)).Pairwise (· < ·) ∧
    (runMints s (ops1 ++ ops2)).Nodup ∧
    ∀ n ∈ runMints (runStore s ops1) ops2,
      (runStore s ops1).next_project_id_num ≤ n := by
  refine ⟨runStore_next s (ops1 ++ ops2), runMints_pairwise s (ops1 ++ ops2),
    ?_, runMints_lower (runStore s ops1) ops2⟩
  exact (runMints_pairwise s (ops1 ++ ops2)).imp ne_of_lt

/-- Witness for C1: the run create "a" (mints suffix 1), delete "P1",
create "b" mints suffixes [1, 2], and the second mint is at least the
counter value reached after the delete. -/
theorem c1_minted_ids_strictly_increase_witness :
    (runStore emptyStore opsCreateDelete).next_project_id_num ≤ 2 ∧
    runMints emptyStore (opsCreateDelete ++ opsCreateMore) = [1, 2] := by
  constructor
  · exact (c1_minted_ids_strictly_increase emptyStore opsCreateDelete
      opsCreateMore).2.2.2 2 (by decide)
  · decide

/-- C2 is refuted as stated: for a store holding a legacy project record
with no notes key, saving and loading does not give back a deep-equal
store — the load normalizes the absent notes to the empty string. -/
theorem c2_roundtrip_counterexample :
    load_data (save_data storeNoNotes) ≠ storeNoNotes := by decide

/-- C2 (amended): saving and then loading yields exactly the
notes-normalization of the original store; it is deep-equal to the
original whenever the store is already normalized (every project and
task carries a notes field), and the normalization is idempotent. -/
theorem c2_roundtrip (s : Store) :
    load_data (save_data s) = normalizeStore s ∧
    normalizeStore (normalizeStore s) = normalizeStore s ∧
    (normalizeStore s = s → load_data (save_data s) = s) := by
  refine ⟨rfl, normalizeStore_idem s, ?_⟩
  intro h
  calc load_data (save_data s) = normalizeStore s := rfl
  _ = s := h

/-- Witness for C2's amended round-trip law at a normalized store. -/
theorem c2_roundtrip_witness : load_data (save_data storeNormal) = storeNormal :=
  (c2_roundtrip storeNormal).2.2 (by decide)

/-- C3 is refuted as stated: submitting the task editor with the
whitespace-only name " " fails validation, yet the store still changes,
because the unconditional notes assignment after the button handler
overwrites the task's notes with the text area content. -/
theorem c3_update_task_counterexample :
    (update_task storeTaskOld "P1" 0 " " none "Not Started" "new").1 =
      some PMError.validation ∧
    (update_task storeTaskOld "P1" 0 " " none "Not Started" "new").2 ≠
      storeTaskOld := by
  decide

/-- C3 (amended): when the submitted name is empty after trimming, the
operation fails with ValidationError; the counter, every other project,
every other task of the addressed project, and the task's name, due
date and status are left exactly as they were, but the task's notes
field is overwritten with the submitted notes value. -/
theorem c3_update_task_empty_name (s : Store) (pid : String) (i : Nat)
    (nm : String) (due : Option String) (status : String) (notes2 : String)
    (p : Project) (hnm : pyStrip nm = "") (hp : dictGet s.projects pid = some p)
    (hi : i < p.tasks.length) :
    (update_task s pid i nm due status notes2).1 = some PMError.validation ∧
    (update_task s pid i nm due status notes2).2.next_project_id_num =
      s.next_project_id_num ∧
    (∀ k, k ≠ pid →
      dictGet (update_task s pid i nm due status notes2).2.projects k =
        dictGet s.projects k) ∧
    ∃ p2, dictGet (update_task s pid i nm due status notes2).2.projects pid =
        some p2 ∧
      p2.name = p.name ∧ p2.description = p.description ∧
      p2.created_date = p.created_date ∧ p2.notes = p.notes ∧
      p2.tasks.length = p.tasks.length ∧
      (∀ j, j ≠ i → p2.tasks[j]? = p.tasks[j]?) ∧
      ∃ t t2, p.tasks[i]? = some t ∧ p2.tasks[i]? = some t2 ∧
        t2.name = t.name ∧ t2.due_date = t.due_date ∧ t2.status = t.status ∧
        t2.notes = some notes2 := by
  obtain ⟨t, ht⟩ : ∃ t, p.tasks[i]? = some t :=
    ⟨p.tasks[i], List.getElem?_eq_getElem hi⟩
  refine ⟨by simp [update_task, hnm], by simp [update_task, hnm], ?_, ?_⟩
  · intro k hk
    simp [update_task, hnm, dictGet_mapProject, hk]
  · let p2 : Project :=
      { p with tasks := modifyAt (fun t => { t with notes := some notes2 }) i p.tasks }
    refine ⟨p2, ?_, rfl, rfl, rfl, rfl, modifyAt_length _ i p.tasks, ?_, ?_⟩
    · simp [update_task, hnm, dictGet_mapProject, hp]
    · intro j hj
      simp only [modifyAt_getElem?]
      rw [if_neg (fun h => hj h.symm)]
    · refine ⟨t, { t with notes := some notes2 }, ht, ?_, rfl, rfl, rfl, rfl⟩
      simp [modifyAt_getElem?, ht]

/-- Witness for C3's amended statement at a concrete store. -/
theorem c3_update_task_empty_name_witness :
    (update_task storeTaskOld "P1" 0 " " none "Not Started" "new").1 =
      some PMError.validation := by
  exact (c3_update_task_empty_name storeTaskOld "P1" 0 " " none "Not Started"
    "new" (sampleProject "a"
      [{ name := "t", due_date := none, status := "Not Started",
         notes := some "old" }])
    (by decide) (by decide) (by decide)).1

/-- C4 is refuted as stated: with projects "P1" and "P12" in the store
and an expansion entry keyed by "P12" (key "P12_0"), deleting "P1"
also removes that entry of the other project, because the code matches
expansion keys by `startswith` on the deleted id. -/
theorem c4_delete_project_counterexample :
    (dictGet storePrefixIds.projects "P12").isSome = true ∧
    dictGet expP12 "P12_0" = some true ∧
    dictGet (delete_project_ui storePrefixIds expP12 "P1").2 "P12_0" = none := by
  decide

/-- C4 (amended): deleting a present project id removes that project
record (and with it all its tasks) and leaves the counter and every
other project unchanged; of the UI expansion state it removes exactly
the entries whose key starts with the deleted id — these include every
entry keyed by that id but can also include entries of another project
whose id extends the deleted one as a string. -/
theorem c4_delete_project_frame (s : Store) (exp : Dict Bool) (pid : String)
    (p : Project) (hp : dictGet s.projects pid = some p) :
    dictGet (delete_project_ui s exp pid).1.projects pid = none ∧
    (delete_project_ui s exp pid).1.next_project_id_num =
      s.next_project_id_num ∧
    (∀ k, k ≠ pid →
      dictGet (delete_project_ui s exp pid).1.projects k = dictGet s.projects k) ∧
    (∀ k, dictGet (delete_project_ui s exp pid).2 k =
      if pyStartsWith k pid then none else dictGet exp k) := by
  refine ⟨?_, rfl, ?_, ?_⟩
  · simp [delete_project_ui, delete_project, dictGet_dictErase]
  · intro k hk
    simp [delete_project_ui, delete_project, dictGet_dictErase, hk]
  · intro k
    exact dictGet_delete_expansion exp pid k

/-- Witness for C4's amended statement at the two-project store. -/
theorem c4_delete_project_frame_witness :
    dictGet (delete_project_ui storePrefixIds expP12 "P1").1.projects "P1" =
      none ∧
    dictGet (delete_project_ui storePrefixIds expP12 "P1").1.projects "P12" =
      dictGet storePrefixIds.projects "P12" := by
  have h := c4_delete_project_frame storePrefixIds expP12 "P1"
    (sampleProject "one" []) (by decide)
  exact ⟨h.1, h.2.2.1 "P12" (by decide)⟩

/-- C5: the import handler fails with ValidationError and leaves the
in-memory store and the dirty flag untouched when either top-level key
is missing from the payload, and when both keys are present it replaces
the whole store with the imported content and marks the store dirty. -/
theorem c5_importJson_validation (s : Store) (dirty : Bool) (p : FilePayload) :
    ((p.projects = none ∨ p.next_project_id_num = none) →
      importJson s dirty p = (some PMError.validation, s, dirty)) ∧
    (p.projects.isSome = true → p.next_project_id_num.isSome = true →
      importJson s dirty p =
        (none, { projects := p.projects.getD [],
                 next_project_id_num := p.next_project_id_num.getD 1 }, true)) := by
  obtain ⟨pp, pn⟩ := p
  cases pp <;> cases pn <;> simp [importJson]

/-- Witness for C5: a payload without the counter key is rejected with
no state change, and a payload with both keys replaces the store. -/
theorem c5_importJson_validation_witness :
    importJson emptyStore false payloadNoCounter =
      (some PMError.validation, emptyStore, false) ∧
    importJson emptyStore false payloadBoth =
      (none, { projects := [("P7", sampleProject "seven" [])],
               next_project_id_num := 8 }, true) := by
  constructor
  · exact (c5_importJson_validation emptyStore false payloadNoCounter).1
      (Or.inr rfl)
  · exact (c5_importJson_validation emptyStore false payloadBoth).2
      (by decide) (by decide)

/-- C6: creating a project with the empty name always fails with
ValidationError and changes neither the counter nor the project
mapping. -/
theorem c6_create_project_empty_name (s : Store) (d n today : String) :
    create_project s "" d n today = (some PMError.validation, s) := by
  simp [create_project]

/-- C7: for every project present in the store, the progress
computation is total, yields 0 when the project has no tasks, and
otherwise yields the Python rounding of `100 * completed / total`. -/
theorem c7_progress_spec (s : Store) (pid : String) (p : Project)
    (hp : dictGet s.projects pid = some p) :
    (p.tasks = [] → progress p = 0) ∧
    (p.tasks ≠ [] →
      progress p =
        pythonRound (100 * (completedCount p.tasks : ℚ) /
          (p.tasks.length : ℚ))) := by
  constructor
  · intro h
    simp [progress, h]
  · intro h
    have hl : p.tasks.length ≠ 0 := fun h2 => h (List.length_eq_zero.mp h2)
    unfold progress
    rw [if_neg hl]
    congr 1
    ring

/-- Witness for C7: one of three tasks completed gives 33 percent, two
of three give 67 percent. -/
theorem c7_progress_spec_witness :
    progress projOneOfThree = 33 ∧ progress projTwoOfThree = 67 := by
  constructor
  · have h := (c7_progress_spec storeProgress "P1" projOneOfThree
      (by decide)).2 (by decide)
    have hc : completedCount projOneOfThree.tasks = 1 := by decide
    have hl : projOneOfThree.tasks.length = 3 := by decide
    rw [h, hc, hl]
    have he : 100 * ((1 : ℕ) : ℚ) / ((3 : ℕ) : ℚ) = 100 / 3 := by norm_num
    rw [he]
    exact pythonRound_low (100 / 3) 33 (by norm_num) (by norm_num)
  · have h := (c7_progress_spec storeProgress "P2" projTwoOfThree
      (by decide)).2 (by decide)
    have hc : completedCount projTwoOfThree.tasks = 2 := by decide
    have hl : projTwoOfThree.tasks.length = 3 := by decide
    rw [h, hc, hl]
    have he : 100 * ((2 : ℕ) : ℚ) / ((3 : ℕ) : ℚ) = 200 / 3 := by norm_num
    rw [he]
    exact pythonRound_up (200 / 3) 66 (by norm_num) (by norm_num)

/-- C8: every project that comes out of a successful load has a notes
field, every one of its tasks has a notes field, and the project's
notes value is the stored one defaulted to the empty string when it was
absent in the file. -/
theorem c8_load_notes (payload : FilePayload) (pid : String) (p : Project)
    (hp : dictGet (load_data payload).projects pid = some p) :
    p.notes.isSome = true ∧
    (∀ t ∈ p.tasks, t.notes.isSome = true) ∧
    ∃ q, dictGet (payload.projects.getD []) pid = some q ∧
      p = normalizeProject q ∧ p.notes = some (q.notes.getD "") := by
  have h2 : dictGet ((payload.projects.getD []).map
      (fun kv => (kv.1, normalizeProject kv.2))) pid = some p := hp
  rw [dictGet_mapValues] at h2
  obtain ⟨q, hq, hq2⟩ := Option.map_eq_some'.mp h2
  refine ⟨?_, ?_, q, hq, hq2.symm, ?_⟩
  · rw [← hq2]
    simp [normalizeProject]
  · intro t ht
    rw [← hq2] at ht
    simp only [normalizeProject, List.mem_map] at ht
    obtain ⟨t0, ht0, ht1⟩ := ht
    rw [← ht1]
    simp [normalizeTask]
  · rw [← hq2]
    simp [normalizeProject]

/-- Witness for C8 on a legacy payload whose project and task both lack
the notes key. -/
theorem c8_load_notes_witness :
    ∃ p, dictGet (load_data payloadLegacy).projects "P1" = some p ∧
      p.notes.isSome = true := by
  have h := c8_load_notes payloadLegacy "P1" (normalizeProject legacyProject)
    (by decide)
  exact ⟨normalizeProject legacyProject, by decide, h.1⟩

/-- C9: `create_project` fails exactly when the name is the empty
string — a whitespace-only name is accepted and stored verbatim without
trimming — whereas `update_task` trims the name before validating, so a
whitespace-only name fails there. -/
theorem c9_create_no_trim (s : Store) (name d n today : String) :
    ((create_project s name d n today).1 = some PMError.validation ↔
      name = "") ∧
    (name ≠ "" →
      dictGet (create_project s name d n today).2.projects
          ("P" ++ toString s.next_project_id_num) =
        some { name := name, description := d, created_date := today,
               tasks := [], notes := some n }) ∧
    (pyStrip name = "" →
      ∀ pid i due status notes2,
        (update_task s pid i name due status notes2).1 =
          some PMError.validation) := by
  refine ⟨?_, ?_, ?_⟩
  · by_cases h : name = "" <;> simp [create_project, h]
  · intro h
    simp [create_project, h, dictGet_dictSet_self]
  · intro h pid i due status notes2
    simp [update_task, h]

/-- Witness for C9: the whitespace-only name " " is nonempty, so a
create stores it verbatim, while the task editor rejects it. -/
theorem c9_create_no_trim_witness :
    dictGet (create_project emptyStore " " "" "" "2024-01-01").2.projects
        "P1" =
      some { name := " ", description := "", created_date := "2024-01-01",
             tasks := [], notes := some "" } ∧
    (update_task storeTaskOld "P1" 0 " " none "Not Started" "x").1 =
      some PMError.validation := by
  constructor
  · exact (c9_create_no_trim emptyStore " " "" "" "2024-01-01").2.1 (by decide)
  · exact (c9_create_no_trim storeTaskOld " " "" "" "2024-01-01").2.2
      (by decide) "P1" 0 none "Not Started" "x"

/-- C10: a parsed backing file missing the project-mapping key or the
counter key still loads, silently substituting the defaults (empty
mapping, counter 1), while the import handler rejects the same payload
with ValidationError. -/
theorem c10_load_missing_keys (payload : FilePayload) (s : Store)
    (dirty : Bool) :
    ((load_data payload).next_project_id_num =
      payload.next_project_id_num.getD 1) ∧
    (payload.projects = none → (load_data payload).projects = []) ∧
    (payload.next_project_id_num = none →
      (load_data payload).next_project_id_num = 1) ∧
    ((payload.projects = none ∨ payload.next_project_id_num = none) →
      importJson s dirty payload = (some PMError.validation, s, dirty)) := by
  obtain ⟨pp, pn⟩ := payload
  cases pp <;> cases pn <;> simp [load_data, normalizeStore, importJson]

/-- Witness for C10: the payload with both keys missing loads as the
empty store with counter 1, and the import handler rejects it. -/
theorem c10_load_missing_keys_witness :
    (load_data payloadEmpty).projects = [] ∧
    (load_data payloadEmpty).next_project_id_num = 1 ∧
    importJson emptyStore false payloadEmpty =
      (some PMError.validation, emptyStore, false) := by
  have h := c10_load_missing_keys payloadEmpty emptyStore false
  exact ⟨h.2.1 rfl, h.2.2.1 rfl, h.2.2.2 (Or.inl rfl)⟩

end PersoProj
